import Mathlib

/-!
Verification development for the YouTube chapter extractor.

We shallowly embed the two algorithmic components of the repository —
the chapter timestamp extraction engine (`extract_timestamps`,
`is_valid_timestamp`, `time_to_seconds` of `ui_app.py` /
`public_ui_app.py`) and the MoviePy log scraping state machine
(`ProgressCapture.write` of `ui_app.py`) — as executable Lean
functions over `List Char` (Python strings), with rationals standing
for Python floats and `Option`/`Except` for fallible operations.
-/

/-- Python strings are modelled as lists of characters. -/
abbrev PyStr := List Char

/-- The ASCII whitespace characters recognised by Python `str.strip`,
`str.split()` and the regex class `\s`. -/
def isSpaceC (c : Char) : Bool :=
  c = ' ' || c = '\t' || c = '\n' || c = '\r' || c = '\x0b' || c = '\x0c'

/-- ASCII decimal digit, the regex class `\d` / Python `str.isdigit`. -/
def isDigitC (c : Char) : Bool :=
  '0' ≤ c && c ≤ '9'

/-- Python `str.strip()`: drop whitespace from both ends. -/
def pyStrip (s : PyStr) : PyStr :=
  ((s.dropWhile isSpaceC).reverse.dropWhile isSpaceC).reverse

/-- Python `str.split(sep)` for a one-character separator: keeps empty
pieces, `"".split(c) = [""]`. -/
def splitOnC (sep : Char) : PyStr → List PyStr
  | [] => [[]]
  | c :: rest =>
    if c = sep then [] :: splitOnC sep rest
    else
      match splitOnC sep rest with
      | r :: rs => (c :: r) :: rs
      | [] => [[c]]

/-- Python `str.lower()` (ASCII letters; the source only matches ASCII
keywords). -/
def lowerStr (s : PyStr) : PyStr := s.map Char.toLower

/-- Python substring containment `pat in s`. -/
def containsSub (s pat : PyStr) : Bool :=
  match s with
  | [] => pat.isEmpty
  | _ :: rest => pat.isPrefixOf s || containsSub rest pat

/-- Numeric value of a list of decimal digit characters. -/
def digitsToNat (s : PyStr) : Nat :=
  s.foldl (fun acc c => acc * 10 + (c.toNat - 48)) 0

/-- Helper for `pyInt?`: Python integer-literal digit part, i.e. a digit
followed by digits with optional single underscores between digits. -/
def digitsRest (acc : Nat) : PyStr → Option Nat
  | [] => some acc
  | '_' :: c :: rest =>
    if isDigitC c then digitsRest (acc * 10 + (c.toNat - 48)) rest else none
  | c :: rest =>
    if isDigitC c then digitsRest (acc * 10 + (c.toNat - 48)) rest else none

/-- Helper for `pyInt?`: a nonempty digit run with optional underscores. -/
def digitPart? : PyStr → Option Nat
  | [] => none
  | c :: rest => if isDigitC c then digitsRest (c.toNat - 48) rest else none

/-- Python `int(s)`: surrounding whitespace is stripped, an optional
sign precedes the digits; `none` models a raised `ValueError`. -/
def pyInt? (s : PyStr) : Option Int :=
  match pyStrip s with
  | '+' :: rest => (digitPart? rest).map Int.ofNat
  | '-' :: rest => (digitPart? rest).map (fun n => -(n : Int))
  | t => (digitPart? t).map Int.ofNat

/-- `is_valid_timestamp` of `ui_app.py` lines 119–131 (identical in
`public_ui_app.py` lines 232–244): split on `:`; two parts are MM:SS
with minutes in [0,999] and seconds in [0,59]; three parts are HH:MM:SS
with hours in [0,23] and minutes/seconds in [0,59]; a failing `int()`
(`ValueError`, modelled by `pyInt? = none`) is caught and yields
`false`. -/
def is_valid_timestamp (ts : PyStr) : Bool :=
  match splitOnC ':' ts with
  | [p0, p1] =>
    match pyInt? p0, pyInt? p1 with
    | some minutes, some seconds =>
      decide (0 ≤ minutes ∧ minutes ≤ 999 ∧ 0 ≤ seconds ∧ seconds ≤ 59)
    | _, _ => false
  | [p0, p1, p2] =>
    match pyInt? p0, pyInt? p1, pyInt? p2 with
    | some hours, some minutes, some seconds =>
      decide (0 ≤ hours ∧ hours ≤ 23 ∧ 0 ≤ minutes ∧ minutes ≤ 59 ∧
              0 ≤ seconds ∧ seconds ≤ 59)
    | _, _, _ => false
  | _ => false

/-- `time_to_seconds` of `ui_app.py` lines 133–143: MM:SS or HH:MM:SS to
a second count, any other shape or `int()` failure yields 0. -/
def time_to_seconds (s : PyStr) : Int :=
  match splitOnC ':' s with
  | [p0, p1] =>
    match pyInt? p0, pyInt? p1 with
    | some a, some b => a * 60 + b
    | _, _ => 0
  | [p0, p1, p2] =>
    match pyInt? p0, pyInt? p1, pyInt? p2 with
    | some a, some b, some c => a * 3600 + b * 60 + c
    | _, _, _ => 0
  | _ => 0

/-- Prefix match of the regex `\d{1,2}:\d{2}` (greedy first component)
at the head of a string, returning the token and the remaining
characters.  The one- and two-digit forms are structurally exclusive,
so pattern order does not matter. -/
def tcBase? : PyStr → Option (PyStr × PyStr)
  | a :: b :: rest2 =>
    if b = ':' then
      match rest2 with
      | c :: d :: rest =>
        if isDigitC a && isDigitC c && isDigitC d then some ([a, ':', c, d], rest)
        else none
      | _ => none
    else
      match rest2 with
      | ':' :: c :: d :: rest =>
        if isDigitC a && isDigitC b && isDigitC c && isDigitC d then
          some ([a, b, ':', c, d], rest)
        else none
      | _ => none
  | _ => none

/-- Prefix match of `\d{1,2}:\d{2}(?::\d{2})?` with the optional
seconds group taken greedily (used by `re.finditer` in the fallback
pass, where nothing follows the group in the pattern). -/
def tcCore? (s : PyStr) : Option (PyStr × PyStr) :=
  match tcBase? s with
  | none => none
  | some (tok, rest) =>
    match rest with
    | ':' :: c :: d :: rest2 =>
      if isDigitC c && isDigitC d then some (tok ++ [':', c, d], rest2)
      else some (tok, rest)
    | _ => some (tok, rest)

/-- A whole string of the lexical shape `\d{1,2}:\d{2}(?::\d{2})?`. -/
def isTCShape : PyStr → Bool
  | [a, ':', c, d] => isDigitC a && isDigitC c && isDigitC d
  | [a, b, ':', c, d] => isDigitC a && isDigitC b && isDigitC c && isDigitC d
  | [a, ':', c, d, ':', e, f] =>
    isDigitC a && isDigitC c && isDigitC d && isDigitC e && isDigitC f
  | [a, b, ':', c, d, ':', e, f] =>
    isDigitC a && isDigitC b && isDigitC c && isDigitC d && isDigitC e && isDigitC f
  | _ => false

/-- The `\s+(.+)$` tail of the strict regex after a candidate token:
succeeds when at least one whitespace character follows; the returned
title is `group(2).strip()`, which equals `pyStrip rest` both in the
normal case and in the degenerate all-whitespace case (where the regex
backtracks and `group(2)` strips to the empty string). -/
def wsTail? (tk rest : PyStr) : Option (PyStr × PyStr) :=
  match rest with
  | c :: _ => if isSpaceC c then some (tk, pyStrip rest) else none
  | [] => none

/-- The strict-pass regex of `ui_app.py` line 48,
`re.match(r'^(\d{1,2}:\d{2}(?::\d{2})?)\s+(.+)$', line)`: the leading
token is matched greedily (seconds group preferred), backtracking to
the short token when no whitespace follows the long one.  Returns the
captured token and the stripped remainder. -/
def strictMatch? (line : PyStr) : Option (PyStr × PyStr) :=
  match tcBase? line with
  | none => none
  | some (tok4, rest4) =>
    match rest4 with
    | e :: rest5 =>
      if e = ':' then
        match rest5 with
        | c :: d :: rest7 =>
          if isDigitC c && isDigitC d then
            match wsTail? (tok4 ++ [':', c, d]) rest7 with
            | some r => some r
            | none => wsTail? tok4 rest4
          else wsTail? tok4 rest4
        | _ => wsTail? tok4 rest4
      else wsTail? tok4 rest4
    | [] => wsTail? tok4 rest4

/-- The separator-glyph class `[-–—:\s\[\]()•]` shared by the leading
title-cleaning rule and the fallback-pass separator stripping. -/
def isSepGlyph (c : Char) : Bool :=
  c = '-' || c = '–' || c = '—' || c = ':' || isSpaceC c ||
  c = '[' || c = ']' || c = '(' || c = ')' || c = '•'

/-- The trailing title-cleaning class `[,\s\[\]()]`. -/
def isTrailGlyph (c : Char) : Bool :=
  c = ',' || isSpaceC c || c = '[' || c = ']' || c = '(' || c = ')'

/-- Title cleaning of both passes (`ui_app.py` lines 56–57 and 96–97):
strip one leading run of separator glyphs and one trailing run of
`[,\s\[\]()]`. -/
def title_clean (t : PyStr) : PyStr :=
  let t1 := t.dropWhile isSepGlyph
  (t1.reverse.dropWhile isTrailGlyph).reverse

/-- Python `title.startswith('http')`. -/
def startsWithHttp (t : PyStr) : Bool :=
  ['h', 't', 't', 'p'].isPrefixOf t

/-- `re.match(r'^\d+$', title)`: a nonempty string of digits only. -/
def isPyDigits (t : PyStr) : Bool :=
  !t.isEmpty && t.all isDigitC

/-- The strict pass on one (stripped) line, `ui_app.py` lines 48–62:
on a regex match, the marker is accepted when the token validates and
the raw title has length `> 1`; the title is then cleaned and the
marker dropped if it is http-prefixed or purely numeric.  A `none`
result (for any reason) lets the fallback pass run. -/
def strictPass (line : PyStr) : Option (PyStr × PyStr) :=
  match strictMatch? line with
  | none => none
  | some (ts, title0) =>
    if is_valid_timestamp ts = true ∧ 1 < title0.length then
      if startsWithHttp (title_clean title0) = false ∧
         isPyDigits (title_clean title0) = false then
        some (ts, title_clean title0)
      else none
    else none

/-- Lookahead `(?=\s+\d{1,2}:\d{2}(?::\d{2})?|$)` of the fallback
after-title regex: end of string, or a whitespace run followed by a
timecode-shaped occurrence (the timecode starts with a digit, so only
the maximal run can precede it). -/
def lookAheadOK (s : PyStr) : Bool :=
  match s with
  | [] => true
  | c :: _ => isSpaceC c && (tcCore? (s.dropWhile isSpaceC)).isSome

/-- The lazy group `(.+?)` of the fallback after-title regex: the
shortest nonempty prefix whose end position satisfies the lookahead. -/
def lazyGroup : PyStr → PyStr
  | [] => []
  | c :: rs => if lookAheadOK rs then [c] else c :: lazyGroup rs

/-- `re.match(r'^[\s\-–—•:\[\]()]*(.+?)(?=\s+\d{1,2}:\d{2}(?::\d{2})?|$)', A)`
on a nonempty stripped string: the greedy separator run is consumed,
then the lazy group; when the whole string is separators the run
backtracks by one and the group is the last character. -/
def afterMatch (A : PyStr) : PyStr :=
  match A.dropWhile isSepGlyph with
  | [] =>
    match A.getLast? with
    | some c => [c]
    | none => []
  | rest => lazyGroup rest

/-- `re.search(r'^(.+?)[\s\-–—•:\[\]()]*$', B)` on a nonempty stripped
string: the shortest nonempty prefix whose complement suffix consists
of separator glyphs. -/
def beforeGroup : PyStr → PyStr
  | [] => []
  | c :: rs => if rs.all isSepGlyph then [c] else c :: beforeGroup rs

/-- Title selection of the fallback pass (`ui_app.py` lines 75–92):
try the text after the occurrence; when that leaves a falsy title
(`None` or empty) and the occurrence does not start the line, try the
text before the occurrence instead. -/
def fbTitle (before after : PyStr) : Option PyStr :=
  let afterT := pyStrip after
  let title0 : Option PyStr :=
    if afterT.isEmpty then none else some (pyStrip (afterMatch afterT))
  let titleFalsy : Bool :=
    match title0 with
    | none => true
    | some t => t.isEmpty
  if titleFalsy && !before.isEmpty then
    let beforeT := pyStrip before
    if beforeT.isEmpty then title0 else some (pyStrip (beforeGroup beforeT))
  else title0

/-- Validation and cleaning of a fallback title (`ui_app.py` lines
94–100): the raw title needs length `> 1`; after cleaning it must not
be http-prefixed, not purely numeric, and still of length `> 1`. -/
def fbFinish (tok : PyStr) (title? : Option PyStr) : Option (PyStr × PyStr) :=
  match title? with
  | none => none
  | some t =>
    if 1 < t.length then
      let t2 := title_clean t
      if startsWithHttp t2 = false ∧ isPyDigits t2 = false ∧ 1 < t2.length then
        some (tok, t2)
      else none
    else none

/-- One fallback occurrence (`ui_app.py` lines 67–100): skip invalid
tokens, then pick and validate a title. -/
def fbCandidate (tok before after : PyStr) : Option (PyStr × PyStr) :=
  if is_valid_timestamp tok = false then none
  else fbFinish tok (fbTitle before after)

/-- Fuelled scan of `re.finditer(r'(\d{1,2}:\d{2}(?::\d{2})?)', line)`:
left to right, non-overlapping; for each occurrence we record the
token, the text before it and the text after it.  The accumulator
holds the reversed prefix. -/
def fbScanF : Nat → PyStr → PyStr → List (PyStr × PyStr × PyStr)
  | 0, _, _ => []
  | _ + 1, _, [] => []
  | fuel + 1, pre, c :: rs =>
    match tcCore? (c :: rs) with
    | some (tok, rest2) =>
      (tok, pre.reverse, rest2) :: fbScanF fuel (List.reverseAux tok pre) rest2
    | none => fbScanF fuel (c :: pre) rs

/-- All timecode-shaped occurrences of a line with their surrounding
text. -/
def fbOccs (line : PyStr) : List (PyStr × PyStr × PyStr) :=
  fbScanF (line.length + 1) [] line

/-- The whole fallback pass on one line, `ui_app.py` lines 64–100. -/
def fallbackPass (line : PyStr) : List (PyStr × PyStr) :=
  (fbOccs line).filterMap (fun occ => fbCandidate occ.1 occ.2.1 occ.2.2)

/-- Per-line processing of `ui_app.py`: the strict pass accepts and
`continue`s, suppressing the fallback pass; otherwise the fallback
pass contributes its markers. -/
def processLine (line : PyStr) : List (PyStr × PyStr) :=
  match strictPass line with
  | some m => [m]
  | none => fallbackPass line

/-- Python `str.split()` (no argument): split on whitespace runs,
dropping empty pieces — fuelled helper. -/
def pySplitWsF : Nat → PyStr → List PyStr
  | 0, _ => []
  | fuel + 1, s =>
    let s1 := s.dropWhile isSpaceC
    match s1 with
    | [] => []
    | _ => s1.takeWhile (fun c => !isSpaceC c) ::
           pySplitWsF fuel (s1.dropWhile (fun c => !isSpaceC c))

/-- Python `str.split()` with no argument. -/
def pySplitWs (s : PyStr) : List PyStr := pySplitWsF (s.length + 1) s

/-- The deduplication identity of `ui_app.py` lines 106–108:
`' '.join(title.lower().split()[:3])`. -/
def first3Key (t : PyStr) : PyStr :=
  List.intercalate [' '] ((pySplitWs (lowerStr t)).take 3)

/-- The dedup key `(time_to_seconds(ts), first-3-words-of-title)`. -/
def markerKey (m : PyStr × PyStr) : Int × PyStr :=
  (time_to_seconds m.1, first3Key m.2)

/-- The dedup loop of `ui_app.py` lines 102–112: first occurrence of
each key wins, the `seen` set accumulates keys. -/
def dedupKeep : List (Int × PyStr) → List (PyStr × PyStr) → List (PyStr × PyStr)
  | _, [] => []
  | seen, m :: rest =>
    if markerKey m ∈ seen then dedupKeep seen rest
    else m :: dedupKeep (markerKey m :: seen) rest

/-- Ordering used by `unique_timestamps.sort(key=lambda x: time_to_seconds(x[0]))`. -/
def tsLe (a b : PyStr × PyStr) : Prop :=
  time_to_seconds a.1 ≤ time_to_seconds b.1

instance : DecidableRel tsLe := fun _ _ => Int.decLe _ _

instance : IsTotal (PyStr × PyStr) tsLe := ⟨fun _ _ => Int.le_total _ _⟩

instance : IsTrans (PyStr × PyStr) tsLe := ⟨fun _ _ _ => Int.le_trans⟩

/-- The raw candidate list of `ui_app.py` `extract_timestamps` in scan
order: per line, strip, skip short lines, strict pass with fallback. -/
def uiRawCandidates (s : PyStr) : List (PyStr × PyStr) :=
  (splitOnC '\n' s).flatMap (fun raw =>
    let line := pyStrip raw
    if line.length < 4 then [] else processLine line)

/-- `extract_timestamps` of `ui_app.py` lines 36–117: collect
candidates per line, deduplicate by `(seconds, first-3-words)` with
first occurrence winning, and stable-sort ascending by seconds. -/
def extract_timestamps (s : PyStr) : List (PyStr × PyStr) :=
  List.insertionSort tsLe (dedupKeep [] (uiRawCandidates s))

/-- `extract_timestamps(description)` called on a possibly absent
description: `None.split` raises `AttributeError`, which nothing in
`ui_app.py` catches. -/
def extract_timestamps_checked (d : Option PyStr) :
    Except PyStr (List (PyStr × PyStr)) :=
  match d with
  | none => .error (("AttributeError").data)
  | some s => .ok (extract_timestamps s)

/-- `MAX_CHAPTERS` of `public_ui_app.py` line 23. -/
def MAX_CHAPTERS : Nat := 20

/-- The fallback occurrence loop of `public_ui_app.py` lines 179–213:
each iteration first breaks when the running count has reached
`MAX_CHAPTERS`, then appends at most one marker. -/
def pubFBLoop : List (PyStr × PyStr × PyStr) → Nat → List (PyStr × PyStr)
  | [], _ => []
  | occ :: rest, cnt =>
    if MAX_CHAPTERS ≤ cnt then []
    else
      match fbCandidate occ.1 occ.2.1 occ.2.2 with
      | some m => m :: pubFBLoop rest (cnt + 1)
      | none => pubFBLoop rest cnt

/-- The line loop of `public_ui_app.py` lines 151–213: a strict-pass
acceptance that reaches `MAX_CHAPTERS` breaks out of the line loop;
fallback markers are capped by `pubFBLoop`. -/
def pubCollect : List PyStr → List (PyStr × PyStr) → List (PyStr × PyStr)
  | [], acc => acc
  | raw :: rest, acc =>
    let line := pyStrip raw
    if line.length < 4 then pubCollect rest acc
    else
      match strictPass line with
      | some m =>
        if MAX_CHAPTERS ≤ acc.length + 1 then acc ++ [m]
        else pubCollect rest (acc ++ [m])
      | none => pubCollect rest (acc ++ pubFBLoop (fbOccs line) acc.length)

/-- `extract_timestamps` of `public_ui_app.py` lines 143–230: a falsy
(`None` or empty) or over-long description returns `[]`; only the
first 200 lines are processed; the deduplicated sorted result is
truncated to `MAX_CHAPTERS`. -/
def public_extract_timestamps (d : Option PyStr) : List (PyStr × PyStr) :=
  match d with
  | none => []
  | some s =>
    if s.length = 0 then []
    else if 50000 < s.length then []
    else
      let ts := pubCollect ((splitOnC '\n' s).take 200) []
      (List.insertionSort tsLe (dedupKeep [] ts)).take MAX_CHAPTERS

/-- Decimal digit character for a value below 10. -/
def digitChar (n : Nat) : Char := Char.ofNat (48 + n)

/-- Fuelled decimal digits of a natural number, most significant
first. -/
def natDigitsF : Nat → Nat → PyStr → PyStr
  | 0, _, acc => acc
  | fuel + 1, n, acc =>
    if n = 0 then acc else natDigitsF fuel (n / 10) (digitChar (n % 10) :: acc)

/-- Decimal rendering of a natural number, no padding. -/
def natRepr (n : Nat) : PyStr :=
  if n = 0 then ['0'] else natDigitsF (n + 1) n []

/-- Python `str(i)` / `f"{i}"` for an integer. -/
def intRepr (n : Int) : PyStr :=
  if n < 0 then '-' :: natRepr (-n).toNat else natRepr n.toNat

/-- Python `f"{n:02d}"`: pad with a leading zero to width 2. -/
def pyFmt02 (n : Int) : PyStr :=
  let s := intRepr n
  if s.length < 2 then '0' :: s else s

/-- Python `//` (floor division) and `%` (sign of the divisor) for the
positive divisor 60 coincide with `Int.fdiv` and `Int.emod`. -/
def formatMS (n : Int) : PyStr :=
  intRepr (Int.fdiv n 60) ++ ':' :: pyFmt02 (Int.emod n 60)

/-- End-time resolution of `ui_app.py` lines 866–874 (identical in
`public_ui_app.py` lines 704–712): the next marker's timestamp text,
or for the last marker `start + 60` seconds rendered as
`f"{end_seconds//60}:{end_seconds%60:02d}"`. -/
def resolveEndTime (ts : List (PyStr × PyStr)) (i : Nat) : PyStr :=
  if h : i + 1 < ts.length then (ts.get ⟨i + 1, h⟩).1
  else
    match ts.get? i with
    | some m => formatMS (time_to_seconds m.1 + 60)
    | none => []

/-- The stage strings held in `ProgressCapture.current_stage`. -/
inductive Stage where
  | init
  | building
  | audio
  | video
  | video_prep
  | complete
deriving DecidableEq, Repr

/-- The messages `ProgressCapture.write` passes to its callback, one
constructor per f-string of the source, carrying the interpolated
numbers. -/
inductive PMsg where
  | processingAudio
  | writingVideo
  | buildingMsg
  | audioDone (elapsed : ℚ)
  | videoDone (elapsed : ℚ)
  | audioChunk (cur tot : Nat) (pct : ℚ)
  | videoChunk (cur tot : Nat) (pct : ℚ)
  | generalChunk (cur tot : Nat) (pct : ℚ)
  | audioPct (pct : ℚ)
  | videoPct (pct : ℚ)
  | videoFrame (cur tot : Nat) (pct : ℚ)
  | generalFrame (cur tot : Nat) (pct : ℚ)
  | videoPct2 (pct : ℚ)
  | audioPct2 (pct : ℚ)
  | generalPct (pct : ℚ)
  | audioEst (pct : ℚ)
  | videoEst (pct : ℚ)
  | audioEst2 (pct : ℚ)
  | videoEst2 (pct : ℚ)
deriving DecidableEq, Repr

/-- The mutable fields of `ProgressCapture` (`ui_app.py` lines
287–293); times and percents are rationals. -/
structure PState where
  current_step : PyStr
  base_progress : ℚ
  current_stage : Stage
  audio_start_time : Option ℚ
  video_start_time : Option ℚ
deriving DecidableEq, Repr

/-- A freshly constructed `ProgressCapture`. -/
def initPS : PState :=
  { current_step := [], base_progress := 75, current_stage := .init,
    audio_start_time := none, video_start_time := none }

/-- `time.time() - start if start else 0`: a `None` (or zero, falsy)
start time yields elapsed 0. -/
def elapsedOf (now : ℚ) : Option ℚ → ℚ
  | none => 0
  | some t => if t = 0 then 0 else now - t

/-- Leftmost `re.search`: try the matcher at every suffix, leftmost
first. -/
def searchFirst {α : Type} (f : PyStr → Option α) : PyStr → Option α
  | [] => f []
  | s@(_ :: rest) =>
    match f s with
    | some r => some r
    | none => searchFirst f rest

/-- Prefix match of `chunk[:\s]*(\d+)/(\d+)` (on lowercased text). -/
def matchChunkP1? : PyStr → Option (Nat × Nat)
  | 'c' :: 'h' :: 'u' :: 'n' :: 'k' :: r =>
    let r1 := r.dropWhile (fun c => c = ':' || isSpaceC c)
    let d1 := r1.takeWhile isDigitC
    if d1.isEmpty then none
    else
      match r1.drop d1.length with
      | '/' :: r2 =>
        let d2 := r2.takeWhile isDigitC
        if d2.isEmpty then none else some (digitsToNat d1, digitsToNat d2)
      | _ => none
  | _ => none

/-- Prefix match of `(\d+)/(\d+)\s*chunk`. -/
def matchChunkP2? (s : PyStr) : Option (Nat × Nat) :=
  let d1 := s.takeWhile isDigitC
  if d1.isEmpty then none
  else
    match s.drop d1.length with
    | '/' :: r2 =>
      let d2 := r2.takeWhile isDigitC
      if d2.isEmpty then none
      else
        let r3 := (r2.drop d2.length).dropWhile isSpaceC
        if (['c', 'h', 'u', 'n', 'k'] : PyStr).isPrefixOf r3 then
          some (digitsToNat d1, digitsToNat d2)
        else none
    | _ => none

/-- Prefix match of `chunk\s*(\d+)\s*/\s*(\d+)`. -/
def matchChunkP3? : PyStr → Option (Nat × Nat)
  | 'c' :: 'h' :: 'u' :: 'n' :: 'k' :: r =>
    let r1 := r.dropWhile isSpaceC
    let d1 := r1.takeWhile isDigitC
    if d1.isEmpty then none
    else
      match (r1.drop d1.length).dropWhile isSpaceC with
      | '/' :: r2 =>
        let r3 := r2.dropWhile isSpaceC
        let d2 := r3.takeWhile isDigitC
        if d2.isEmpty then none else some (digitsToNat d1, digitsToNat d2)
      | _ => none
  | _ => none

/-- Prefix match of `frame[:\s]*(\d+)/(\d+)`. -/
def matchFrameP1? : PyStr → Option (Nat × Nat)
  | 'f' :: 'r' :: 'a' :: 'm' :: 'e' :: r =>
    let r1 := r.dropWhile (fun c => c = ':' || isSpaceC c)
    let d1 := r1.takeWhile isDigitC
    if d1.isEmpty then none
    else
      match r1.drop d1.length with
      | '/' :: r2 =>
        let d2 := r2.takeWhile isDigitC
        if d2.isEmpty then none else some (digitsToNat d1, digitsToNat d2)
      | _ => none
  | _ => none

/-- Prefix match of `(\d+)/(\d+)\s*frame`. -/
def matchFrameP2? (s : PyStr) : Option (Nat × Nat) :=
  let d1 := s.takeWhile isDigitC
  if d1.isEmpty then none
  else
    match s.drop d1.length with
    | '/' :: r2 =>
      let d2 := r2.takeWhile isDigitC
      if d2.isEmpty then none
      else
        let r3 := (r2.drop d2.length).dropWhile isSpaceC
        if (['f', 'r', 'a', 'm', 'e'] : PyStr).isPrefixOf r3 then
          some (digitsToNat d1, digitsToNat d2)
        else none
    | _ => none

/-- Prefix match of `frame\s*(\d+)\s*/\s*(\d+)`. -/
def matchFrameP3? : PyStr → Option (Nat × Nat)
  | 'f' :: 'r' :: 'a' :: 'm' :: 'e' :: r =>
    let r1 := r.dropWhile isSpaceC
    let d1 := r1.takeWhile isDigitC
    if d1.isEmpty then none
    else
      match (r1.drop d1.length).dropWhile isSpaceC with
      | '/' :: r2 =>
        let r3 := r2.dropWhile isSpaceC
        let d2 := r3.takeWhile isDigitC
        if d2.isEmpty then none else some (digitsToNat d1, digitsToNat d2)
      | _ => none
  | _ => none

/-- Prefix match of `(\d+(?:\.\d+)?)%`, returning the numeric value;
`re` backtracking over the optional fraction cannot succeed once it
fails, since the character after the digit run is then a dot. -/
def matchPct? (s : PyStr) : Option ℚ :=
  let d := s.takeWhile isDigitC
  if d.isEmpty then none
  else
    match s.drop d.length with
    | '.' :: r2 =>
      let f := r2.takeWhile isDigitC
      if f.isEmpty then none
      else
        match r2.drop f.length with
        | '%' :: _ =>
          some ((digitsToNat d : ℚ) + (digitsToNat f : ℚ) / ((10 : ℚ) ^ f.length))
        | _ => none
    | '%' :: _ => some (digitsToNat d : ℚ)
    | _ => none

/-- Prefix match of `t:\s*(\d+(?:\.\d+)?)s` (existence only). -/
def matchTColon? : PyStr → Option Unit
  | 't' :: ':' :: r =>
    let r1 := r.dropWhile isSpaceC
    let d := r1.takeWhile isDigitC
    if d.isEmpty then none
    else
      match r1.drop d.length with
      | '.' :: r3 =>
        let f := r3.takeWhile isDigitC
        if f.isEmpty then none
        else
          match r3.drop f.length with
          | 's' :: _ => some ()
          | _ => none
      | 's' :: _ => some ()
      | _ => none
  | _ => none

/-- Prefix match of `(\d+(?:\.\d+)?)fps` (existence only). -/
def matchFps? (s : PyStr) : Option Unit :=
  let d := s.takeWhile isDigitC
  if d.isEmpty then none
  else
    match s.drop d.length with
    | '.' :: r2 =>
      let f := r2.takeWhile isDigitC
      if f.isEmpty then none
      else if (['f', 'p', 's'] : PyStr).isPrefixOf (r2.drop f.length) then some ()
      else none
    | r => if (['f', 'p', 's'] : PyStr).isPrefixOf r then some () else none

/-- Existence of a `(\d+)/(\d+)` match: some digit, slash, digit
triple. -/
def hasDslashD : PyStr → Bool
  | a :: b :: c :: rest =>
    (isDigitC a && b = '/' && isDigitC c) || hasDslashD (b :: c :: rest)
  | _ => false

/-- The stage-dependent chunk emission (`ui_app.py` lines 349–362); a
zero total raises `ZeroDivisionError`, caught by the bare `except`
with nothing emitted. -/
def chunkStage (st : PState) (cur tot : Nat) : List (ℚ × PMsg) :=
  if tot = 0 then []
  else
    let pct : ℚ := (cur : ℚ) / (tot : ℚ) * 100
    match st.current_stage with
    | .audio => [(st.base_progress + 1 + pct / 100 * 2, .audioChunk cur tot pct)]
    | .video => [(st.base_progress + 4 + pct / 100 * 6, .videoChunk cur tot pct)]
    | _ => [(st.base_progress + pct / 100 * 10, .generalChunk cur tot pct)]

/-- The chunk branch of `ProgressCapture.write` (`ui_app.py` lines
336–378): the three chunk patterns in order, then a direct percentage
(audio/video stages only). -/
def chunkBranch (st : PState) (text low : PyStr) : List (ℚ × PMsg) :=
  match searchFirst matchChunkP1? low with
  | some (c, t) => chunkStage st c t
  | none =>
  match searchFirst matchChunkP2? low with
  | some (c, t) => chunkStage st c t
  | none =>
  match searchFirst matchChunkP3? low with
  | some (c, t) => chunkStage st c t
  | none =>
    if containsSub text ['%'] then
      match searchFirst matchPct? text with
      | some p =>
        match st.current_stage with
        | .audio => [(st.base_progress + 1 + p / 100 * 2, .audioPct p)]
        | .video => [(st.base_progress + 4 + p / 100 * 6, .videoPct p)]
        | _ => []
      | none => []
    else []

/-- The stage-dependent frame emission (`ui_app.py` lines 394–403). -/
def frameStage (st : PState) (cur tot : Nat) : List (ℚ × PMsg) :=
  if tot = 0 then []
  else
    let pct : ℚ := (cur : ℚ) / (tot : ℚ) * 100
    match st.current_stage with
    | .video => [(st.base_progress + 4 + pct / 100 * 6, .videoFrame cur tot pct)]
    | _ => [(st.base_progress + pct / 100 * 10, .generalFrame cur tot pct)]

/-- The frame branch of `ProgressCapture.write` (`ui_app.py` lines
381–422): the three frame patterns, then a direct percentage with a
general-processing default. -/
def frameBranch (st : PState) (text low : PyStr) : List (ℚ × PMsg) :=
  match searchFirst matchFrameP1? low with
  | some (c, t) => frameStage st c t
  | none =>
  match searchFirst matchFrameP2? low with
  | some (c, t) => frameStage st c t
  | none =>
  match searchFirst matchFrameP3? low with
  | some (c, t) => frameStage st c t
  | none =>
    if containsSub text ['%'] then
      match searchFirst matchPct? text with
      | some p =>
        match st.current_stage with
        | .video => [(st.base_progress + 4 + p / 100 * 6, .videoPct2 p)]
        | .audio => [(st.base_progress + 1 + p / 100 * 2, .audioPct2 p)]
        | _ => [(st.base_progress + p / 100 * 10, .generalPct p)]
      | none => []
    else []

/-- The elapsed-time estimation branch of `ProgressCapture.write`
(`ui_app.py` lines 425–472), reached only in the audio/video stages:
any of four progress-looking patterns triggers an elapsed-time
estimate; otherwise a pure elapsed-time update is emitted once half a
second has passed. -/
def estBranch (st : PState) (text : PyStr) (now : ℚ) : List (ℚ × PMsg) :=
  let found := (searchFirst matchPct? text).isSome || hasDslashD text ||
               (searchFirst matchTColon? text).isSome ||
               (searchFirst matchFps? text).isSome
  if found then
    match st.current_stage with
    | .audio =>
      let e := elapsedOf now st.audio_start_time
      let est := min 90 (e * 15)
      [(st.base_progress + 1 + est / 100 * 2, .audioEst est)]
    | .video =>
      let e := elapsedOf now st.video_start_time
      let est := min 90 (e * 8)
      [(st.base_progress + 4 + est / 100 * 6, .videoEst est)]
    | _ => []
  else
    match st.current_stage with
    | .audio =>
      match st.audio_start_time with
      | some t =>
        if t = 0 then []
        else
          let e := now - t
          let est := min 85 (e * 12)
          if 1 / 2 < e then [(st.base_progress + 1 + est / 100 * 2, .audioEst2 est)]
          else []
      | none => []
    | .video =>
      match st.video_start_time with
      | some t =>
        if t = 0 then []
        else
          let e := now - t
          let est := min 85 (e * 6)
          if 1 / 2 < e then [(st.base_progress + 4 + est / 100 * 6, .videoEst2 est)]
          else []
      | none => []
    | _ => []

/-- `ProgressCapture.write` (`ui_app.py` lines 295–472): the argument
is stripped, then matched against the branch cascade; `now` is the
value `time.time()` returns during this call.  Returns the updated
state and the list of `(percent, message)` callback invocations. -/
def write (st : PState) (raw : PyStr) (now : ℚ) : PState × List (ℚ × PMsg) :=
  let text := pyStrip raw
  let low := lowerStr text
  if containsSub low (("writing audio").data) then
    ({ st with current_stage := .audio,
               current_step := ("Processing audio track").data,
               audio_start_time := some now },
     [(st.base_progress + 1, .processingAudio)])
  else if containsSub low (("writing video").data) then
    ({ st with current_stage := .video,
               current_step := ("Writing video data").data,
               video_start_time := some now },
     [(st.base_progress + 4, .writingVideo)])
  else if containsSub low (("building").data) then
    ({ st with current_stage := .building,
               current_step := ("Building video structure").data },
     [(st.base_progress, .buildingMsg)])
  else if containsSub low (("done").data) then
    match st.current_stage with
    | .audio =>
      ({ st with current_stage := .video_prep },
       [(st.base_progress + 3, .audioDone (elapsedOf now st.audio_start_time))])
    | .video =>
      ({ st with current_stage := .complete },
       [(st.base_progress + 10, .videoDone (elapsedOf now st.video_start_time))])
    | _ => (st, [])
  else if (containsSub low (("chunk").data) && containsSub text ['/']) ||
          (containsSub text ['t', ':'] && containsSub text ['%']) then
    (st, chunkBranch st text low)
  else if (containsSub low (("frame").data) &&
           (containsSub text ['/'] || containsSub text ['%'])) ||
          (text.any isDigitC && (containsSub text ['%'] || containsSub text ['/'])) then
    (st, frameBranch st text low)
  else if st.current_stage = .audio || st.current_stage = .video then
    (st, estBranch st text now)
  else (st, [])

/-- The emission trace of feeding a sequence of `(line, time)` pairs
to one `ProgressCapture` instance. -/
def runTrace (st : PState) : List (PyStr × ℚ) → List (ℚ × PMsg)
  | [] => []
  | (line, now) :: rest =>
    let r := write st line now
    r.2 ++ runTrace r.1 rest

/-- A whole string of the base shape `\d{1,2}:\d{2}`. -/
def isTCBaseShape : PyStr → Bool
  | [a, ':', c, d] => isDigitC a && isDigitC c && isDigitC d
  | [a, b, ':', c, d] => isDigitC a && isDigitC b && isDigitC c && isDigitC d
  | _ => false

/-- Declarative acceptance condition of the strict pass: the line
starts with a timecode-shaped token that validates, the next character
is whitespace, the stripped remainder has raw length above 1, and the
cleaned remainder is neither http-prefixed nor purely numeric. -/
def strictAccept (line tok t : PyStr) : Prop :=
  isTCShape tok = true ∧ is_valid_timestamp tok = true ∧
  (∃ rest, line = tok ++ rest) ∧
  (∃ w tl, line.drop tok.length = w :: tl ∧ isSpaceC w = true) ∧
  1 < (pyStrip (line.drop tok.length)).length ∧
  t = title_clean (pyStrip (line.drop tok.length)) ∧
  startsWithHttp t = false ∧ isPyDigits t = false

/-! ## Theorems -/

/-- C3: on `"00:00 Intro\n05:30 Chapter Two\n1:10:00 Finale\n"` the
extractor returns exactly the three markers `(0, "Intro")`,
`(330, "Chapter Two")`, `(4200, "Finale")`, in that order. -/
theorem extract_strict_example :
    extract_timestamps (("00:00 Intro\n05:30 Chapter Two\n1:10:00 Finale\n").data) =
      [(("00:00").data, ("Intro").data),
       (("05:30").data, ("Chapter Two").data),
       (("1:10:00").data, ("Finale").data)] ∧
    time_to_seconds (("00:00").data) = 0 ∧
    time_to_seconds (("05:30").data) = 330 ∧
    time_to_seconds (("1:10:00").data) = 4200 := by
  refine ⟨by decide, by decide, by decide, by decide⟩

/-- C4: on `"Intro - 0:12\n[1:45] Second part\n"` (no strict-form
lines) the fallback pass recovers exactly `(12, "Intro")` (title taken
from before the timecode) and `(105, "Second part")` (title taken from
after the timecode), in that order. -/
theorem extract_fallback_example :
    extract_timestamps (("Intro - 0:12\n[1:45] Second part\n").data) =
      [(("0:12").data, ("Intro").data),
       (("1:45").data, ("Second part").data)] ∧
    (∀ line ∈ splitOnC '\n' (("Intro - 0:12\n[1:45] Second part\n").data),
       strictPass (pyStrip line) = none) ∧
    fbCandidate (("0:12").data) (("Intro - ").data) [] =
      some ((("0:12").data), (("Intro").data)) ∧
    fbCandidate (("1:45").data) (("[").data) (("] Second part").data) =
      some ((("1:45").data), (("Second part").data)) ∧
    time_to_seconds (("0:12").data) = 12 ∧
    time_to_seconds (("1:45").data) = 105 := by
  refine ⟨by decide, by decide, by decide, by decide, by decide, by decide⟩

/-- C1 (counterexample): the percent sequence passed to the callback is
not monotonically non-decreasing and nothing is suppressed — feeding
"writing video" then "writing audio" to a fresh `ProgressCapture`
emits 79 and then the lower 76. -/
theorem progress_percent_decrease_cex :
    (runTrace initPS [(("writing video").data, 0), (("writing audio").data, 0)]).map
        Prod.fst = [79, 76] ∧
    ¬ List.Chain' (fun a b => a ≤ b)
        ((runTrace initPS [(("writing video").data, 0),
                           (("writing audio").data, 0)]).map Prod.fst) := by
  have h : (runTrace initPS [(("writing video").data, 0),
      (("writing audio").data, 0)]).map Prod.fst = [79, 76] := by
    norm_num [runTrace, write, initPS,
      show containsSub (lowerStr (pyStrip (("writing video").data)))
          (("writing audio").data) = false from by decide,
      show containsSub (lowerStr (pyStrip (("writing video").data)))
          (("writing video").data) = true from by decide,
      show containsSub (lowerStr (pyStrip (("writing audio").data)))
          (("writing audio").data) = true from by decide]
  refine ⟨h, ?_⟩
  rw [h]
  norm_num [List.chain'_cons]

/-- C1 (amended): `ProgressCapture.write` applies no suppression, so
monotonicity is not enforced in general; on the canonical stage
sequence building → writing audio → done → writing video → done the
emitted percents are `base`, `base+1`, `base+3`, `base+4`, `base+10`,
a non-decreasing sequence. -/
theorem progress_canonical_path_monotone :
    (runTrace initPS
        [(("building...").data, 0), (("writing audio").data, 0),
         (("done").data, 1), (("writing video").data, 1),
         (("done").data, 2)]).map Prod.fst = [75, 76, 78, 79, 85] ∧
    List.Chain' (fun a b => a ≤ b) ([75, 76, 78, 79, 85] : List ℚ) := by
  constructor
  · norm_num [runTrace, write, initPS, elapsedOf,
      show containsSub (lowerStr (pyStrip (("building...").data)))
          (("writing audio").data) = false from by decide,
      show containsSub (lowerStr (pyStrip (("building...").data)))
          (("writing video").data) = false from by decide,
      show containsSub (lowerStr (pyStrip (("building...").data)))
          (("building").data) = true from by decide,
      show containsSub (lowerStr (pyStrip (("writing audio").data)))
          (("writing audio").data) = true from by decide,
      show containsSub (lowerStr (pyStrip (("writing video").data)))
          (("writing audio").data) = false from by decide,
      show containsSub (lowerStr (pyStrip (("writing video").data)))
          (("writing video").data) = true from by decide,
      show containsSub (lowerStr (pyStrip (("done").data)))
          (("writing audio").data) = false from by decide,
      show containsSub (lowerStr (pyStrip (("done").data)))
          (("writing video").data) = false from by decide,
      show containsSub (lowerStr (pyStrip (("done").data)))
          (("building").data) = false from by decide,
      show containsSub (lowerStr (pyStrip (("done").data)))
          (("done").data) = true from by decide]
  · norm_num [List.chain'_cons]

/-- C2 (counterexample): on the line `"0:00 a,"` the remainder `"a,"`
has raw length 2 but cleans to the single character `"a"`; the claim
says no strict-pass marker results, yet the strict pass accepts the
marker `("0:00", "a")` because the source checks the length before
cleaning. -/
theorem strict_short_cleaned_title_cex :
    strictPass (("0:00 a,").data) = some ((("0:00").data), (("a").data)) ∧
    1 < (pyStrip ((" a,").data)).length ∧
    (title_clean (("a,").data)).length ≤ 1 := by
  refine ⟨by decide, by decide, by decide⟩

/-- C9 (counterexample): in `ui_app.py` an absent (`None`) description
is not a supported input — `None.split('\n')` raises
`AttributeError`, so `extract_timestamps` does not return the empty
list there. -/
theorem ui_extract_none_raises_cex :
    extract_timestamps_checked none ≠ .ok [] := by
  simp [extract_timestamps_checked]

/-- C10: the public extractor returns `[]` for descriptions longer
than 50000 characters, depends only on the first 200 lines otherwise,
and never returns more than `MAX_CHAPTERS` markers. -/
theorem public_extract_limits :
    (∀ s : PyStr, 50000 < s.length → public_extract_timestamps (some s) = []) ∧
    (∀ s s' : PyStr, s.length ≠ 0 → s'.length ≠ 0 →
       s.length ≤ 50000 → s'.length ≤ 50000 →
       (splitOnC '\n' s).take 200 = (splitOnC '\n' s').take 200 →
       public_extract_timestamps (some s) = public_extract_timestamps (some s')) ∧
    (∀ d : Option PyStr, (public_extract_timestamps d).length ≤ MAX_CHAPTERS) := by
  refine ⟨?_, ?_, ?_⟩
  · intro s h
    simp only [public_extract_timestamps]
    rw [if_neg (by omega), if_pos h]
  · intro s s' h0 h0' hle hle' hwin
    simp only [public_extract_timestamps]
    rw [if_neg h0, if_neg h0', if_neg (by omega), if_neg (by omega), hwin]
  · intro d
    match d with
    | none => simp [public_extract_timestamps]
    | some s =>
      simp only [public_extract_timestamps]
      split
      · simp
      · split
        · simp
        · exact List.length_take_le _ _

/-- Seconds below 60 render under `{:02d}` as exactly two characters. -/
theorem pyFmt02_length_two : ∀ n : Nat, n < 60 → (pyFmt02 (Int.ofNat n)).length = 2 := by
  decide

/-- C7: the resolved end time for the marker at index `i` is the next
marker's timestamp text when one exists, and otherwise
`start + 60` seconds rendered as `f"{end//60}:{end%60:02d}"` —
unbounded unpadded minutes, seconds zero-padded to exactly two
characters. -/
theorem resolve_end_time_spec (ts : List (PyStr × PyStr)) (i : Nat)
    (h : i < ts.length) :
    (∀ h2 : i + 1 < ts.length, resolveEndTime ts i = (ts.get ⟨i + 1, h2⟩).1) ∧
    (i + 1 = ts.length →
      resolveEndTime ts i =
        intRepr (Int.fdiv (time_to_seconds (ts.get ⟨i, h⟩).1 + 60) 60) ++
          ':' :: pyFmt02 (Int.emod (time_to_seconds (ts.get ⟨i, h⟩).1 + 60) 60) ∧
      (pyFmt02 (Int.emod (time_to_seconds (ts.get ⟨i, h⟩).1 + 60) 60)).length = 2) := by
  constructor
  · intro h2
    unfold resolveEndTime
    rw [dif_pos h2]
  · intro hlast
    have hnot : ¬ (i + 1 < ts.length) := by omega
    have hget : ts.get? i = some (ts.get ⟨i, h⟩) := List.get?_eq_get h
    constructor
    · unfold resolveEndTime
      rw [dif_neg hnot, hget]
      rfl
    · set e : Int := Int.emod (time_to_seconds (ts.get ⟨i, h⟩).1 + 60) 60 with he
      have h0 : 0 ≤ e := Int.emod_nonneg _ (by norm_num)
      have h60 : e < 60 := Int.emod_lt_of_pos _ (by norm_num)
      have : e = Int.ofNat e.toNat := (Int.toNat_of_nonneg h0).symm
      rw [this]
      exact pyFmt02_length_two e.toNat (by omega)

/-- C6: `is_valid_timestamp` returns `True` exactly for a 2-way split
into numeric minutes in [0,999] and seconds in [0,59], or a 3-way
split into numeric hours in [0,23] and minutes/seconds in [0,59];
every other part count, unparsable token or out-of-range value yields
`False` (and the model is total, mirroring the `try/except`). -/
theorem is_valid_timestamp_characterization (ts : PyStr) :
    is_valid_timestamp ts = true ↔
      ((∃ p0 p1 minutes seconds, splitOnC ':' ts = [p0, p1] ∧
          pyInt? p0 = some minutes ∧ pyInt? p1 = some seconds ∧
          0 ≤ minutes ∧ minutes ≤ 999 ∧ 0 ≤ seconds ∧ seconds ≤ 59) ∨
       (∃ p0 p1 p2 hours minutes seconds, splitOnC ':' ts = [p0, p1, p2] ∧
          pyInt? p0 = some hours ∧ pyInt? p1 = some minutes ∧
          pyInt? p2 = some seconds ∧
          0 ≤ hours ∧ hours ≤ 23 ∧ 0 ≤ minutes ∧ minutes ≤ 59 ∧
          0 ≤ seconds ∧ seconds ≤ 59)) := by
  constructor
  · intro h
    unfold is_valid_timestamp at h
    split at h
    · rename_i p0 p1 heq
      split at h
      · rename_i m s h0 h1
        exact Or.inl ⟨p0, p1, m, s, heq, h0, h1, by simpa using of_decide_eq_true h⟩
      · exact absurd h (by simp)
    · rename_i p0 p1 p2 heq
      split at h
      · rename_i a b c h0 h1 h2
        refine Or.inr ⟨p0, p1, p2, a, b, c, heq, h0, h1, h2, ?_⟩
        simpa using of_decide_eq_true h
      · exact absurd h (by simp)
    · exact absurd h (by simp)
  · rintro (⟨p0, p1, m, s, heq, h0, h1, c1, c2, c3, c4⟩ |
            ⟨p0, p1, p2, a, b, c, heq, h0, h1, h2, c1, c2, c3, c4, c5, c6⟩) <;>
      unfold is_valid_timestamp
    · rw [heq]
      simp only [h0, h1]
      exact decide_eq_true (by exact ⟨c1, c2, c3, c4⟩)
    · rw [heq]
      simp only [h0, h1, h2]
      exact decide_eq_true (by exact ⟨c1, c2, c3, c4, c5, c6⟩)

/-- C8: the coarse transition table of `ProgressCapture.write`.  A
line containing (after stripping, case-insensitively) "writing audio"
moves any stage to audio, records the stage start and emits `base+1`;
"done" in the audio stage emits `base+3` with the elapsed time and
moves to video_prep; "writing video" moves to video, records the
stage start and emits `base+4`; "done" in the video stage emits
`base+10` with the elapsed time and moves to the terminal complete
stage.  The source checks its trigger substrings in a fixed order, so
each "done" and "writing video" statement assumes the line does not
also contain an earlier-checked trigger. -/
theorem progress_write_coarse_transitions :
    (∀ (st : PState) (text : PyStr) (now : ℚ),
       containsSub (lowerStr (pyStrip text)) (("writing audio").data) = true →
       write st text now =
         ({ st with current_stage := .audio,
                    current_step := ("Processing audio track").data,
                    audio_start_time := some now },
          [(st.base_progress + 1, .processingAudio)])) ∧
    (∀ (st : PState) (text : PyStr) (now : ℚ),
       st.current_stage = .audio →
       containsSub (lowerStr (pyStrip text)) (("done").data) = true →
       containsSub (lowerStr (pyStrip text)) (("writing audio").data) = false →
       containsSub (lowerStr (pyStrip text)) (("writing video").data) = false →
       containsSub (lowerStr (pyStrip text)) (("building").data) = false →
       write st text now =
         ({ st with current_stage := .video_prep },
          [(st.base_progress + 3, .audioDone (elapsedOf now st.audio_start_time))])) ∧
    (∀ (st : PState) (text : PyStr) (now : ℚ),
       containsSub (lowerStr (pyStrip text)) (("writing video").data) = true →
       containsSub (lowerStr (pyStrip text)) (("writing audio").data) = false →
       write st text now =
         ({ st with current_stage := .video,
                    current_step := ("Writing video data").data,
                    video_start_time := some now },
          [(st.base_progress + 4, .writingVideo)])) ∧
    (∀ (st : PState) (text : PyStr) (now : ℚ),
       st.current_stage = .video →
       containsSub (lowerStr (pyStrip text)) (("done").data) = true →
       containsSub (lowerStr (pyStrip text)) (("writing audio").data) = false →
       containsSub (lowerStr (pyStrip text)) (("writing video").data) = false →
       containsSub (lowerStr (pyStrip text)) (("building").data) = false →
       write st text now =
         ({ st with current_stage := .complete },
          [(st.base_progress + 10, .videoDone (elapsedOf now st.video_start_time))])) := by
  refine ⟨?_, ?_, ?_, ?_⟩
  · intro st text now h1
    simp [write, h1]
  · intro st text now hst h1 h2 h3 h4
    simp [write, h1, h2, h3, h4, hst]
  · intro st text now h1 h2
    simp [write, h1, h2]
  · intro st text now hst h1 h2 h3 h4
    simp [write, h1, h2, h3, h4, hst]

theorem isDigitC_ne_colon {b : Char} (hb : isDigitC b = true) : b ≠ ':' := by
  intro h
  rw [h] at hb
  exact absurd hb (by decide)

theorem tcBase?_some_iff {s tok rest : PyStr} :
    tcBase? s = some (tok, rest) ↔ s = tok ++ rest ∧ isTCBaseShape tok = true := by
  constructor
  · intro h
    unfold tcBase? at h
    split at h
    · rename_i a b rest2
      split at h
      · rename_i hb
        subst hb
        split at h
        · rename_i c d rest0
          split at h
          · rename_i hg
            simp only [Option.some.injEq, Prod.mk.injEq] at h
            obtain ⟨h1, h2⟩ := h
            subst h1
            subst h2
            exact ⟨by simp, by simpa [isTCBaseShape] using hg⟩
          · exact absurd h (by simp)
        · exact absurd h (by simp)
      · rename_i hb
        split at h
        · rename_i c d rest0
          split at h
          · rename_i hg
            simp only [Option.some.injEq, Prod.mk.injEq] at h
            obtain ⟨h1, h2⟩ := h
            subst h1
            subst h2
            exact ⟨by simp, by simpa [isTCBaseShape] using hg⟩
          · exact absurd h (by simp)
        · exact absurd h (by simp)
    · exact absurd h (by simp)
  · rintro ⟨rfl, hshape⟩
    unfold isTCBaseShape at hshape
    split at hshape
    · rename_i a c d
      simp only [Bool.and_eq_true] at hshape
      obtain ⟨⟨ha, hc⟩, hd⟩ := hshape
      simp [tcBase?, ha, hc, hd]
    · rename_i a b c d
      simp only [Bool.and_eq_true] at hshape
      obtain ⟨⟨⟨ha, hb⟩, hc⟩, hd⟩ := hshape
      show tcBase? (a :: b :: (':' :: c :: d :: rest)) = _
      simp only [tcBase?]
      rw [if_neg (isDigitC_ne_colon hb)]
      simp [ha, hb, hc, hd]
    · exact absurd hshape (by simp)

theorem isSpaceC_ne_colon {w : Char} (hw : isSpaceC w = true) : w ≠ ':' := by
  intro h
  rw [h] at hw
  exact absurd hw (by decide)

theorem wsTail?_some_iff {tk rest tok title : PyStr} :
    wsTail? tk rest = some (tok, title) ↔
      (∃ w tl, rest = w :: tl ∧ isSpaceC w = true) ∧ tok = tk ∧
      title = pyStrip rest := by
  constructor
  · intro h
    unfold wsTail? at h
    split at h
    · rename_i w tl
      split at h
      · rename_i hw
        simp only [Option.some.injEq, Prod.mk.injEq] at h
        exact ⟨⟨w, tl, rfl, hw⟩, h.1.symm, h.2.symm⟩
      · exact absurd h (by simp)
    · exact absurd h (by simp)
  · rintro ⟨⟨w, tl, rfl, hw⟩, rfl, rfl⟩
    simp [wsTail?, hw]

theorem isTCShape_of_base {t : PyStr} (h : isTCBaseShape t = true) :
    isTCShape t = true := by
  unfold isTCBaseShape at h
  split at h
  · rename_i a c d
    simpa [isTCShape] using h
  · rename_i a b c d
    simpa [isTCShape] using h
  · exact absurd h (by simp)

theorem isTCShape_append {t : PyStr} {c d : Char} (h : isTCBaseShape t = true)
    (hc : isDigitC c = true) (hd : isDigitC d = true) :
    isTCShape (t ++ [':', c, d]) = true := by
  unfold isTCBaseShape at h
  split at h
  · rename_i a c0 d0
    simp only [Bool.and_eq_true] at h
    simp [isTCShape, h.1.1, h.1.2, h.2, hc, hd]
  · rename_i a b c0 d0
    simp only [Bool.and_eq_true] at h
    simp [isTCShape, h.1.1.1, h.1.1.2, h.1.2, h.2, hc, hd]
  · exact absurd h (by simp)

theorem strictMatch?_iff {line tok title : PyStr} :
    strictMatch? line = some (tok, title) ↔
      isTCShape tok = true ∧ (∃ rest, line = tok ++ rest) ∧
      (∃ w tl, line.drop tok.length = w :: tl ∧ isSpaceC w = true) ∧
      title = pyStrip (line.drop tok.length) := by
  constructor
  · intro h
    unfold strictMatch? at h
    split at h
    · exact absurd h (by simp)
    · rename_i tok4 rest4 htc
      obtain ⟨hline, hbase⟩ := tcBase?_some_iff.mp htc
      split at h
      · rename_i e rest5
        split at h
        · rename_i he
          subst he
          split at h
          · rename_i c d rest7
            split at h
            · rename_i hg
              simp only [Bool.and_eq_true] at hg
              split at h
              · rename_i r hr
                simp only [Option.some.injEq] at h
                subst h
                obtain ⟨⟨w, tl, rfl, hw⟩, htok, htitle⟩ := wsTail?_some_iff.mp hr
                subst htok
                have hline2 : line = (tok4 ++ [':', c, d]) ++ (w :: tl) := by
                  rw [hline]; simp
                have hdrop : line.drop (tok4 ++ [':', c, d]).length = w :: tl := by
                  rw [hline2, List.drop_left]
                exact ⟨isTCShape_append hbase hg.1 hg.2, ⟨w :: tl, hline2⟩,
                       ⟨w, tl, hdrop, hw⟩, by rw [hdrop]; exact htitle⟩
              · rename_i hnone
                obtain ⟨⟨w, tl, hww, hw⟩, _, _⟩ := wsTail?_some_iff.mp h
                injection hww with hww1 _
                exact absurd hw (by rw [← hww1] at *; simp_all [isSpaceC])
            · obtain ⟨⟨w, tl, hww, hw⟩, _, _⟩ := wsTail?_some_iff.mp h
              injection hww with hww1 _
              exact absurd hw (by rw [← hww1] at *; simp_all [isSpaceC])
          · obtain ⟨⟨w, tl, hww, hw⟩, _, _⟩ := wsTail?_some_iff.mp h
            injection hww with hww1 _
            exact absurd hw (by rw [← hww1] at *; simp_all [isSpaceC])
        · rename_i he
          obtain ⟨⟨w, tl, hww, hw⟩, htok, htitle⟩ := wsTail?_some_iff.mp h
          subst htok
          have hdrop : line.drop tok.length = e :: rest5 := by
            rw [hline, List.drop_left]
          exact ⟨isTCShape_of_base hbase, ⟨e :: rest5, hline⟩,
                 ⟨w, tl, by rw [hdrop]; exact hww, hw⟩,
                 by rw [hdrop]; exact htitle⟩
      · exact absurd h (by simp [wsTail?])
  · rintro ⟨hshape, ⟨rest, rfl⟩, ⟨w, tl, hdrop, hw⟩, htitle⟩
    rw [List.drop_left] at hdrop
    subst hdrop
    rw [List.drop_left] at htitle
    unfold isTCShape at hshape
    split at hshape
    · rename_i a c d
      simp only [Bool.and_eq_true] at hshape
      have htc : tcBase? (([a, ':', c, d] : PyStr) ++ (w :: tl)) =
          some ([a, ':', c, d], w :: tl) :=
        tcBase?_some_iff.mpr ⟨rfl, by simp [isTCBaseShape, hshape.1.1, hshape.1.2, hshape.2]⟩
      simp only [strictMatch?, htc]
      rw [if_neg (isSpaceC_ne_colon hw)]
      simp [wsTail?, hw, htitle]
    · rename_i a b c d
      simp only [Bool.and_eq_true] at hshape
      have htc : tcBase? (([a, b, ':', c, d] : PyStr) ++ (w :: tl)) =
          some ([a, b, ':', c, d], w :: tl) :=
        tcBase?_some_iff.mpr ⟨rfl, by
          simp [isTCBaseShape, hshape.1.1.1, hshape.1.1.2, hshape.1.2, hshape.2]⟩
      simp only [strictMatch?, htc]
      rw [if_neg (isSpaceC_ne_colon hw)]
      simp [wsTail?, hw, htitle]
    · rename_i a c d e f
      simp only [Bool.and_eq_true] at hshape
      obtain ⟨⟨⟨⟨ha, hc⟩, hd⟩, he⟩, hf⟩ := hshape
      have htc : tcBase? (([a, ':', c, d, ':', e, f] : PyStr) ++ (w :: tl)) =
          some ([a, ':', c, d], ':' :: e :: f :: w :: tl) :=
        tcBase?_some_iff.mpr ⟨by simp, by simp [isTCBaseShape, ha, hc, hd]⟩
      simp only [List.cons_append, List.nil_append] at htc
      simp [strictMatch?, htc, wsTail?, hw, htitle, he, hf]
    · rename_i a b c d e f
      simp only [Bool.and_eq_true] at hshape
      obtain ⟨⟨⟨⟨⟨ha, hb⟩, hc⟩, hd⟩, he⟩, hf⟩ := hshape
      have htc : tcBase? (([a, b, ':', c, d, ':', e, f] : PyStr) ++ (w :: tl)) =
          some ([a, b, ':', c, d], ':' :: e :: f :: w :: tl) :=
        tcBase?_some_iff.mpr ⟨by simp, by simp [isTCBaseShape, ha, hb, hc, hd]⟩
      simp only [List.cons_append, List.nil_append] at htc
      simp [strictMatch?, htc, wsTail?, hw, htitle, he, hf]
    · exact absurd hshape (by simp)

/-- C2 (amended): the strict pass accepts a line with marker
`(tok, t)` exactly when the line begins with a timecode-shaped token
`tok` that `is_valid_timestamp` accepts, followed by at least one
whitespace character and a remainder whose stripped form has length
above 1 BEFORE title-cleaning, and whose cleaned form `t` is neither
http-prefixed nor purely numeric (the cleaned title may have length 1
or 0); when the strict pass accepts, the fallback pass is suppressed
for that line. -/
theorem strict_pass_characterization (line tok t : PyStr) :
    (strictPass line = some (tok, t) ↔ strictAccept line tok t) ∧
    (strictPass line = some (tok, t) → processLine line = [(tok, t)]) := by
  constructor
  · constructor
    · intro h
      unfold strictPass at h
      split at h
      · exact absurd h (by simp)
      · rename_i ts title0 hm
        split at h
        · rename_i hcond
          split at h
          · rename_i hcl
            simp only [Option.some.injEq, Prod.mk.injEq] at h
            obtain ⟨rfl, rfl⟩ := h
            obtain ⟨hshape, hrest, hws, htitle0⟩ := strictMatch?_iff.mp hm
            subst htitle0
            exact ⟨hshape, hcond.1, hrest, hws, hcond.2, rfl, hcl.1, hcl.2⟩
          · exact absurd h (by simp)
        · exact absurd h (by simp)
    · rintro ⟨hshape, hvalid, hrest, hws, hlen, ht, hhttp, hdigits⟩
      subst ht
      have hm : strictMatch? line = some (tok, pyStrip (line.drop tok.length)) :=
        strictMatch?_iff.mpr ⟨hshape, hrest, hws, rfl⟩
      simp only [strictPass, hm]
      rw [if_pos ⟨hvalid, hlen⟩, if_pos ⟨hhttp, hdigits⟩]
  · intro h
    unfold processLine
    rw [h]

theorem dedupKeep_first {seen : List (Int × PyStr)} {l : List (PyStr × PyStr)}
    {m : PyStr × PyStr} (h : m ∈ dedupKeep seen l) :
    markerKey m ∉ seen ∧
    l.find? (fun x => decide (markerKey x = markerKey m)) = some m := by
  induction l generalizing seen with
  | nil => simp [dedupKeep] at h
  | cons a rest ih =>
    unfold dedupKeep at h
    split at h
    · rename_i hin
      obtain ⟨h1, h2⟩ := ih h
      have hne : ¬ (markerKey a = markerKey m) := fun he => h1 (he ▸ hin)
      exact ⟨h1, by rw [List.find?_cons_of_neg _ (by simpa using hne)]; exact h2⟩
    · rename_i hnin
      rcases List.mem_cons.mp h with rfl | h
      · exact ⟨hnin, by rw [List.find?_cons_of_pos _ (by simp)]⟩
      · obtain ⟨h1, h2⟩ := ih h
        have hne : ¬ (markerKey a = markerKey m) := by
          intro he
          exact h1 (by simp [he])
        refine ⟨fun hc => h1 (List.mem_cons_of_mem _ hc), ?_⟩
        rw [List.find?_cons_of_neg _ (by simpa using hne)]
        exact h2

theorem dedupKeep_pairwise (seen : List (Int × PyStr)) (l : List (PyStr × PyStr)) :
    (dedupKeep seen l).Pairwise (fun a b => markerKey a ≠ markerKey b) := by
  induction l generalizing seen with
  | nil => simp [dedupKeep]
  | cons a rest ih =>
    unfold dedupKeep
    split
    · exact ih _
    · refine List.Pairwise.cons ?_ (ih _)
      intro b hb he
      exact (dedupKeep_first hb).1 (by simp [he])

/-- C5: for every description, in both variants, the extractor output
is sorted ascending by `time_to_seconds`, has pairwise distinct
`(seconds, first-3-words)` keys, and every returned marker is
literally the first raw candidate (in scan order) bearing its key. -/
theorem extract_sorted_dedup_first_wins :
    (∀ d : PyStr,
       (extract_timestamps d).Pairwise
           (fun a b => time_to_seconds a.1 ≤ time_to_seconds b.1) ∧
       (extract_timestamps d).Pairwise (fun a b => markerKey a ≠ markerKey b) ∧
       (∀ m ∈ extract_timestamps d,
          (uiRawCandidates d).find?
              (fun x => decide (markerKey x = markerKey m)) = some m)) ∧
    (∀ s : PyStr,
       (public_extract_timestamps (some s)).Pairwise
           (fun a b => time_to_seconds a.1 ≤ time_to_seconds b.1) ∧
       (public_extract_timestamps (some s)).Pairwise
           (fun a b => markerKey a ≠ markerKey b) ∧
       (s.length ≤ 50000 →
        ∀ m ∈ public_extract_timestamps (some s),
          (pubCollect ((splitOnC '\n' s).take 200) []).find?
              (fun x => decide (markerKey x = markerKey m)) = some m)) := by
  have hsym : ∀ {x y : PyStr × PyStr},
      markerKey x ≠ markerKey y → markerKey y ≠ markerKey x := fun h he => h he.symm
  constructor
  · intro d
    refine ⟨List.sorted_insertionSort tsLe _, ?_, ?_⟩
    · exact ((List.perm_insertionSort tsLe _).pairwise_iff hsym).mpr
        (dedupKeep_pairwise [] (uiRawCandidates d))
    · intro m hm
      have hm2 : m ∈ dedupKeep [] (uiRawCandidates d) :=
        (List.perm_insertionSort tsLe _).mem_iff.mp hm
      exact (dedupKeep_first hm2).2
  · intro s
    by_cases h0 : s.length = 0
    · simp [public_extract_timestamps, h0]
    · by_cases h50 : 50000 < s.length
      · simp [public_extract_timestamps, h0, h50]
      · have hres : public_extract_timestamps (some s) =
            (List.insertionSort tsLe
              (dedupKeep [] (pubCollect ((splitOnC '\n' s).take 200) []))).take
              MAX_CHAPTERS := by
          simp only [public_extract_timestamps]
          rw [if_neg h0, if_neg h50]
        rw [hres]
        refine ⟨?_, ?_, ?_⟩
        · exact (List.sorted_insertionSort tsLe _).sublist (List.take_sublist _ _)
        · exact (((List.perm_insertionSort tsLe _).pairwise_iff hsym).mpr
            (dedupKeep_pairwise [] _)).sublist (List.take_sublist _ _)
        · intro _ m hm
          have hm1 : m ∈ List.insertionSort tsLe
              (dedupKeep [] (pubCollect ((splitOnC '\n' s).take 200) [])) :=
            (List.take_sublist _ _).subset hm
          have hm2 : m ∈ dedupKeep [] (pubCollect ((splitOnC '\n' s).take 200) []) :=
            (List.perm_insertionSort tsLe _).mem_iff.mp hm1
          exact (dedupKeep_first hm2).2

/-- C9 (amended): the empty description and any description with no
recoverable candidate yield the empty list in both variants, and the
public variant also returns the empty list on an absent (`None`)
description, while the `ui_app.py` variant raises `AttributeError`
there. -/
theorem extract_empty_and_none_behavior :
    extract_timestamps_checked none = .error (("AttributeError").data) ∧
    public_extract_timestamps none = [] ∧
    extract_timestamps [] = [] ∧
    public_extract_timestamps (some []) = [] ∧
    (∀ d : PyStr, uiRawCandidates d = [] → extract_timestamps d = []) ∧
    (∀ d : PyStr, pubCollect ((splitOnC '\n' d).take 200) [] = [] →
       public_extract_timestamps (some d) = []) := by
  refine ⟨rfl, rfl, by decide, by decide, ?_, ?_⟩
  · intro d h
    unfold extract_timestamps
    rw [h]
    rfl
  · intro d h
    by_cases h0 : d.length = 0
    · simp [public_extract_timestamps, h0]
    · by_cases h50 : 50000 < d.length
      · simp [public_extract_timestamps, h0, h50]
      · simp only [public_extract_timestamps]
        rw [if_neg h0, if_neg h50, h]
        rfl

/-- Witness for the strict-pass characterization at the line
"0:00 Hello". -/
theorem strict_pass_characterization_witness :
    processLine (("0:00 Hello").data) = [((("0:00").data), (("Hello").data))] :=
  (strict_pass_characterization (("0:00 Hello").data) (("0:00").data)
    (("Hello").data)).2 (by decide)

/-- Witness for the dedup invariants: two markers sharing the key
(5, "alpha beta gamma") keep only the first candidate. -/
theorem extract_sorted_dedup_first_wins_witness :
    (uiRawCandidates
        (("0:05 Alpha Beta Gamma Delta\n0:05 Alpha Beta Gamma Epsilon\n").data)).find?
        (fun x => decide (markerKey x = markerKey
          ((("0:05").data), (("Alpha Beta Gamma Delta").data)))) =
      some ((("0:05").data), (("Alpha Beta Gamma Delta").data)) :=
  ((extract_sorted_dedup_first_wins.1
      (("0:05 Alpha Beta Gamma Delta\n0:05 Alpha Beta Gamma Epsilon\n").data)).2.2
    ((("0:05").data), (("Alpha Beta Gamma Delta").data)) (by decide))

/-- Witness for the boundary resolver at a two-marker list (next
marker) and a one-marker list (start + 60 rendered as "1:05"). -/
theorem resolve_end_time_spec_witness :
    resolveEndTime [((("0:05").data), (("A").data)),
                    ((("0:10").data), (("B").data))] 0 = ("0:10").data ∧
    resolveEndTime [((("0:05").data), (("A").data))] 0 = ("1:05").data := by
  constructor
  · exact (resolve_end_time_spec
      [((("0:05").data), (("A").data)), ((("0:10").data), (("B").data))] 0
      (by decide)).1 (by decide)
  · have h := (resolve_end_time_spec [((("0:05").data), (("A").data))] 0
      (by decide)).2 (by decide)
    rw [h.1]
    decide

/-- Witness: a description without any timecode yields no markers. -/
theorem extract_empty_and_none_behavior_witness :
    extract_timestamps (("hello world, no markers here").data) = [] :=
  extract_empty_and_none_behavior.2.2.2.2.1 (("hello world, no markers here").data)
    (by decide)

/-- Witness instantiating all four coarse transitions at concrete
states and lines. -/
theorem progress_write_coarse_transitions_witness :
    write initPS (("writing audio").data) 2 =
      ({ initPS with current_stage := .audio,
                     current_step := ("Processing audio track").data,
                     audio_start_time := some 2 },
       [(initPS.base_progress + 1, .processingAudio)]) ∧
    write ⟨[], 75, .audio, some 2, none⟩ (("done").data) 5 =
      ({ (⟨[], 75, .audio, some 2, none⟩ : PState) with current_stage := .video_prep },
       [((75 : ℚ) + 3, .audioDone (elapsedOf 5 (some 2)))]) ∧
    write initPS (("writing video").data) 3 =
      ({ initPS with current_stage := .video,
                     current_step := ("Writing video data").data,
                     video_start_time := some 3 },
       [(initPS.base_progress + 4, .writingVideo)]) ∧
    write ⟨[], 75, .video, none, some 3⟩ (("done").data) 5 =
      ({ (⟨[], 75, .video, none, some 3⟩ : PState) with current_stage := .complete },
       [((75 : ℚ) + 10, .videoDone (elapsedOf 5 (some 3)))]) := by
  refine ⟨?_, ?_, ?_, ?_⟩
  · exact progress_write_coarse_transitions.1 initPS (("writing audio").data) 2
      (by decide)
  · exact progress_write_coarse_transitions.2.1 ⟨[], 75, .audio, some 2, none⟩
      (("done").data) 5 rfl (by decide) (by decide) (by decide) (by decide)
  · exact progress_write_coarse_transitions.2.2.1 initPS (("writing video").data) 3
      (by decide) (by decide)
  · exact progress_write_coarse_transitions.2.2.2 ⟨[], 75, .video, none, some 3⟩
      (("done").data) 5 rfl (by decide) (by decide) (by decide) (by decide)

/-- Witness for the public-variant limits at a 50001-character
description, a window-equal pair, and a small description. -/
theorem public_extract_limits_witness :
    public_extract_timestamps (some (List.replicate 50001 'a')) = [] ∧
    public_extract_timestamps (some (("0:00 Hello\n1:00 World").data)) =
      public_extract_timestamps (some (("0:00 Hello\n1:00 World").data)) ∧
    (public_extract_timestamps (some (("0:00 Hello").data))).length ≤ MAX_CHAPTERS := by
  refine ⟨?_, ?_, ?_⟩
  · exact public_extract_limits.1 (List.replicate 50001 'a')
      (by rw [List.length_replicate]; norm_num)
  · exact public_extract_limits.2.1
      (("0:00 Hello\n1:00 World").data) (("0:00 Hello\n1:00 World").data)
      (by decide) (by decide) (by decide) (by decide) rfl
  · exact public_extract_limits.2.2 (some (("0:00 Hello").data))
